import Mathlib

/-!
Verification of the particle-tree animation core
(`src/App.tsx`, `src/components/ParticleTree.tsx`).

The numeric code is shallowly embedded: JS numbers become `ℚ` where the
source only uses field arithmetic and comparisons (progress controller,
transition-engine lerp steps, camera mapping), and `ℝ` where the source
uses transcendental functions (`Math.sqrt`, `Math.cbrt`, trigonometry in
the layout generators).  Stateful per-frame code becomes explicit
recursion over tick indices or event lists.
-/

/-- `THREE.MathUtils.lerp(x, y, t) = (1 - t) * x + t * y` (three.js source). -/
def mathLerp (x y t : ℚ) : ℚ := (1 - t) * x + t * y

/-- `THREE.MathUtils.clamp(value, min, max) = Math.max(min, Math.min(max, value))`. -/
def mathClamp (value lo hi : ℚ) : ℚ := max lo (min hi value)

/-- `THREE.MathUtils.mapLinear(x, a1, a2, b1, b2) = b1 + (x - a1) * (b2 - b1) / (a2 - a1)`. -/
def mapLinear (x a1 a2 b1 b2 : ℚ) : ℚ := b1 + (x - a1) * (b2 - b1) / (a2 - a1)

/-- `LuxuryTree` frame callback: `const lerpSpeed = isHandOpen ? 4.0 : 2.0`
(`src/components/ParticleTree.tsx:744`). -/
def lerpSpeed (isHandOpen : Bool) : ℚ := if isHandOpen then 4 else 2

/-- One tick of the progress controller
(`src/components/ParticleTree.tsx:738-746`):
`target = isHandOpen ? 1 : 0`;
`progressRef.current = THREE.MathUtils.lerp(progressRef.current, target, delta * lerpSpeed)`. -/
def progressUpdate (isHandOpen : Bool) (value dt : ℚ) : ℚ :=
  mathLerp value (if isHandOpen then 1 else 0) (dt * lerpSpeed isHandOpen)

/-- The progress value after processing a list of ticks, each tick carrying
the driver sample `isHandOpen` and the frame delta `dt`. -/
def progressRun (value : ℚ) : List (Bool × ℚ) → ℚ
  | [] => value
  | t :: ts => progressRun (progressUpdate t.1 value t.2) ts

/-- The progress value after `n` ticks of the fixed scatter scenario:
initial value `useRef(0)`, driver held at `isHandOpen = true` (rate 4.0),
fixed `dt = 1/60`. -/
def scatterProgress : ℕ → ℚ
  | 0 => 0
  | n + 1 => progressUpdate true (scatterProgress n) (1 / 60)

/-- A 3-component vector over a coordinate type, mirroring `THREE.Vector3`. -/
@[ext]
structure Vec3 (α : Type) where
  x : α
  y : α
  z : α
deriving DecidableEq

/-- `THREE.Vector3.lerp(v, alpha)`: componentwise
`this.x += (v.x - this.x) * alpha` (three.js source). -/
def vlerp {α : Type} [CommRing α] (p dest : Vec3 α) (alpha : α) : Vec3 α :=
  ⟨p.x + (dest.x - p.x) * alpha, p.y + (dest.y - p.y) * alpha, p.z + (dest.z - p.z) * alpha⟩

/-- Destination selection shared by `OrnamentInstance`, `SinglePolaroid` and
`ScatteringGiftBox`: `const dest = progress > 0.5 ? chaos : target`. -/
def selectDest {α : Type} (progress : ℚ) (chaos target : α) : α :=
  if progress > 1 / 2 then chaos else target

/-- `OrnamentInstance` per-tick position update
(`src/components/ParticleTree.tsx:557`): `currentPos.current.lerp(dest, delta * 3)`. -/
def ornamentPosStep (p dest : Vec3 ℚ) (dt : ℚ) : Vec3 ℚ :=
  vlerp p dest (dt * 3)

/-- `SinglePolaroid` per-tick position update, normal state
(`src/components/ParticleTree.tsx:691`): `currentPos.current.lerp(dest, delta * 2)`. -/
def polaroidPosStep (p dest : Vec3 ℚ) (dt : ℚ) : Vec3 ℚ :=
  vlerp p dest (dt * 2)

/-- `GestureController` distance mapping (`src/App.tsx:42-43`):
`const zInput = THREE.MathUtils.clamp(handZ, 0.05, 0.35);`
`const distance = THREE.MathUtils.mapLinear(zInput, 0.05, 0.35, 22, 6);`. -/
def cameraDistance (handZ : ℚ) : ℚ :=
  mapLinear (mathClamp handZ (1 / 20) (7 / 20)) (1 / 20) (7 / 20) 22 6

/-- Focus-controller state: the store's `isHandOpen` driver and the
`Polaroids` component's `focusedIndex` (`useState<number | null>(null)`). -/
structure FocusState where
  isHandOpen : Bool
  focused : Option ℕ
deriving DecidableEq

/-- Events acting on the focus state: a click on card `i`
(`SinglePolaroid` `onClick`) and a change of the hand-open driver
(`Polaroids` `useEffect` on `isHandOpen`). -/
inductive FocusEvent where
  | click (i : ℕ)
  | hand (b : Bool)
deriving DecidableEq

/-- One focus-state transition.  A click runs
`if (isHandOpen) setFocusedIndex(isFocused ? null : index)`
(`src/components/ParticleTree.tsx:711-717`); a driver change to `false`
runs the reset effect `if (!isHandOpen) setFocusedIndex(null)`
(`src/components/ParticleTree.tsx:603-605`). -/
def focusStep (s : FocusState) : FocusEvent → FocusState
  | FocusEvent.click i =>
      if s.isHandOpen then
        ⟨s.isHandOpen, if s.focused = some i then none else some i⟩
      else s
  | FocusEvent.hand b => ⟨b, if b then s.focused else none⟩

/-- Focus state after a sequence of events. -/
def focusRun (s : FocusState) (es : List FocusEvent) : FocusState :=
  es.foldl focusStep s

noncomputable section

/-- `const GOLDEN_ANGLE = Math.PI * (3 - Math.sqrt(5))` (`src/components/ParticleTree.tsx:15`). -/
def GOLDEN_ANGLE : ℝ := Real.pi * (3 - Real.sqrt 5)

/-- `const TREE_HEIGHT = 7`. -/
def TREE_HEIGHT : ℝ := 7

/-- `const TREE_WIDTH = 3.5`. -/
def TREE_WIDTH : ℝ := 3.5

/-- The radius computed inside `getTreePos`: `const radius = width * (1 - t)`
(`src/components/ParticleTree.tsx:186`). -/
def treeRadius (t width : ℝ) : ℝ := width * (1 - t)

/-- `getTreePos(t, theta, height, width)` (`src/components/ParticleTree.tsx:183-190`):
`y = height * t - height / 2`, `radius = width * (1 - t)`,
`x = radius * cos(theta)`, `z = radius * sin(theta)`. -/
def getTreePos (t theta height width : ℝ) : Vec3 ℝ :=
  ⟨treeRadius t width * Real.cos theta, height * t - height / 2,
    treeRadius t width * Real.sin theta⟩

/-- `Math.cbrt` on the nonnegative reals the sources feed it. -/
def mathCbrt (v : ℝ) : ℝ := v ^ ((1 : ℝ) / 3)

/-- The radius computed inside `getChaosPos`
(`src/components/ParticleTree.tsx:170-173`):
`minVol = Math.pow(minRatio, 3)`,
`rRandom = Math.random() * (1 - minVol) + minVol`,
`r = Math.cbrt(rRandom) * scale`, with `u3` standing for the radius draw. -/
def chaosRadius (scale minRat u3 : ℝ) : ℝ :=
  mathCbrt (u3 * (1 - minRat ^ 3) + minRat ^ 3) * scale

/-- `getChaosPos(scale, minRatio)` (`src/components/ParticleTree.tsx:166-180`)
with the three `Math.random()` draws made explicit as `u1 u2 u3`:
`theta = u1 * 2π`, `phi = acos(2 * u2 - 1)`, radius as in `chaosRadius`,
returning `(r sin φ cos θ, r sin φ sin θ, r cos φ)`. -/
def getChaosPos (scale minRat u1 u2 u3 : ℝ) : Vec3 ℝ :=
  let theta := u1 * (Real.pi * 2)
  let phi := Real.arccos (2 * u2 - 1)
  let r := chaosRadius scale minRat u3
  ⟨r * Real.sin phi * Real.cos theta, r * Real.sin phi * Real.sin theta, r * Real.cos phi⟩

/-- Squared Euclidean distance between two positions. -/
def distSq (v w : Vec3 ℝ) : ℝ := (v.x - w.x) ^ 2 + (v.y - w.y) ^ 2 + (v.z - w.z) ^ 2

/-- Euclidean distance from the origin. -/
def vecNorm (v : Vec3 ℝ) : ℝ := Real.sqrt (distSq v ⟨0, 0, 0⟩)

/-- The `Foliage` density weighting `t = 1 - Math.sqrt((i + 1) / (count + 1))`
with `count = 9000` (`src/components/ParticleTree.tsx:434`). -/
def foliageT (i : ℕ) : ℝ := 1 - Real.sqrt (((i : ℝ) + 1) / (9000 + 1))

/-- The formation radius of foliage particle `i`: the radius `getTreePos`
computes for `t = foliageT i` and `width = TREE_WIDTH = 3.5`. -/
def foliageRadius (i : ℕ) : ℝ := treeRadius (foliageT i) TREE_WIDTH

/-- The `Polaroids` density weighting `t = 1 - Math.sqrt((i+1)/(count+1))`
with `count = 48` (`src/components/ParticleTree.tsx:616`). -/
def polaroidT (i : ℕ) : ℝ := 1 - Real.sqrt (((i : ℝ) + 1) / (48 + 1))

/-- Formation position of card `i`:
`getTreePos(t, i * GOLDEN_ANGLE, TREE_HEIGHT, TREE_WIDTH * 1.1)`
(`src/components/ParticleTree.tsx:614-623`). -/
def polaroidTarget (i : ℕ) : Vec3 ℝ :=
  getTreePos (polaroidT i) ((i : ℝ) * GOLDEN_ANGLE) TREE_HEIGHT (TREE_WIDTH * 1.1)

/-- Card position after `n` ticks of the scatter scenario: `currentPos`
starts at `useRef(data.target.clone())`; each tick the progress controller
updates first, then `SinglePolaroid` (normal state) runs
`dest = progress > 0.5 ? data.chaos : data.target` and
`currentPos.current.lerp(dest, delta * 2)` with `delta = 1/60`. -/
def cardRun (target chaos : Vec3 ℝ) : ℕ → Vec3 ℝ
  | 0 => target
  | n + 1 =>
      vlerp (cardRun target chaos n)
        (selectDest (scatterProgress (n + 1)) chaos target) ((1 / 60) * 2)

/-- Ornament position after `n` ticks of the scatter scenario: `currentPos`
starts at `useRef(target.clone())`; each tick `OrnamentInstance` runs
`dest = progress > 0.5 ? chaos : target` and
`currentPos.current.lerp(dest, delta * 3)` with `delta = 1/60`. -/
def ornamentRun (target chaos : Vec3 ℝ) : ℕ → Vec3 ℝ
  | 0 => target
  | n + 1 =>
      vlerp (ornamentRun target chaos n)
        (selectDest (scatterProgress (n + 1)) chaos target) ((1 / 60) * 3)

end

/-! ### Helper lemmas: progress controller -/

lemma progressUpdate_mem (d : Bool) (v dt : ℚ) (h0 : 0 ≤ v) (h1 : v ≤ 1)
    (hdt : 0 ≤ dt) (hf : dt * lerpSpeed d ≤ 1) :
    0 ≤ progressUpdate d v dt ∧ progressUpdate d v dt ≤ 1 := by
  have hs : (0 : ℚ) ≤ lerpSpeed d := by cases d <;> norm_num [lerpSpeed]
  have hf0 : 0 ≤ dt * lerpSpeed d := mul_nonneg hdt hs
  cases d <;>
    simp only [progressUpdate, mathLerp, lerpSpeed, if_true, if_false,
      Bool.false_eq_true, ite_true, ite_false] at hf0 hf ⊢ <;>
    constructor <;> nlinarith

lemma progressRun_mem :
    ∀ (ticks : List (Bool × ℚ)) (v : ℚ), 0 ≤ v → v ≤ 1 →
      (∀ p ∈ ticks, 0 ≤ p.2 ∧ p.2 * lerpSpeed p.1 ≤ 1) →
      0 ≤ progressRun v ticks ∧ progressRun v ticks ≤ 1
  | [], _, h0, h1, _ => ⟨h0, h1⟩
  | t :: ts, v, h0, h1, hvalid => by
      have ht := hvalid t (List.mem_cons_self t ts)
      have hv := progressUpdate_mem t.1 v t.2 h0 h1 ht.1 ht.2
      exact progressRun_mem ts _ hv.1 hv.2 fun p hp => hvalid p (List.mem_cons_of_mem t hp)

lemma progressUpdate_step_bound (d : Bool) (v dt : ℚ)
    (h0 : 0 ≤ v) (h1 : v ≤ 1) (hdt : 0 ≤ dt) :
    |progressUpdate d v dt - v| ≤ dt * lerpSpeed d := by
  have hs : (0 : ℚ) ≤ dt * lerpSpeed d :=
    mul_nonneg hdt (by cases d <;> norm_num [lerpSpeed])
  have hdiff : progressUpdate d v dt - v = ((if d then 1 else 0) - v) * (dt * lerpSpeed d) := by
    simp only [progressUpdate, mathLerp]; ring
  have htgt : |(if d then (1 : ℚ) else 0) - v| ≤ 1 := by
    cases d <;> simp only [if_true, if_false, Bool.false_eq_true, ite_true, ite_false] <;>
      rw [abs_le] <;> constructor <;> linarith
  calc |progressUpdate d v dt - v|
      = |(if d then (1 : ℚ) else 0) - v| * |dt * lerpSpeed d| := by rw [hdiff, abs_mul]
    _ ≤ 1 * (dt * lerpSpeed d) := by
        rw [abs_of_nonneg hs]; exact mul_le_mul_of_nonneg_right htgt hs
    _ = dt * lerpSpeed d := one_mul _

lemma scatterProgress_closed (n : ℕ) : scatterProgress n = 1 - (14 / 15 : ℚ) ^ n := by
  induction n with
  | zero => simp [scatterProgress]
  | succ n ih =>
      show progressUpdate true (scatterProgress n) (1 / 60) = _
      rw [ih]
      simp only [progressUpdate, mathLerp, lerpSpeed, ite_true, pow_succ]
      ring

/-! ### C1, C3 theorems -/

/-- C1 counterexample: the progress update does not clamp its interpolation
factor, so one tick with the driver open and a spiked `dt = 1` drives the
value from 0 to 4, leaving `[0, 1]`. -/
theorem progressRun_spike_escapes :
    progressRun 0 [(true, 1)] = 4 ∧ ¬ progressRun 0 [(true, 1)] ≤ 1 := by
  norm_num [progressRun, progressUpdate, mathLerp, lerpSpeed]

/-- C1 (amended): for every tick sequence whose frame deltas are nonnegative
and satisfy `rate·dt ≤ 1` (rate 4 when the driver is open, 2 when closed),
the progress value starting at 0 never leaves `[0, 1]`, and each tick
changes the value by at most the frame-bounded step `rate·dt`.  The code
does not clamp the factor, so the restriction on `dt` is necessary. -/
theorem progressRun_bounded_of_small_dt :
    (∀ ticks : List (Bool × ℚ),
        (∀ p ∈ ticks, 0 ≤ p.2 ∧ p.2 * lerpSpeed p.1 ≤ 1) →
        0 ≤ progressRun 0 ticks ∧ progressRun 0 ticks ≤ 1)
    ∧ (∀ (d : Bool) (v dt : ℚ), 0 ≤ v → v ≤ 1 → 0 ≤ dt →
        |progressUpdate d v dt - v| ≤ dt * lerpSpeed d) :=
  ⟨fun ticks h => progressRun_mem ticks 0 le_rfl (by norm_num) h,
   progressUpdate_step_bound⟩

/-- Witness for C1 (amended) at a concrete two-tick run and a concrete step. -/
theorem progressRun_bounded_witness :
    (0 ≤ progressRun 0 [(true, 1 / 8), (false, 1 / 4)]
      ∧ progressRun 0 [(true, 1 / 8), (false, 1 / 4)] ≤ 1)
    ∧ |progressUpdate true 0 (1 / 60) - 0| ≤ (1 / 60) * lerpSpeed true :=
  ⟨progressRun_bounded_of_small_dt.1 [(true, 1 / 8), (false, 1 / 4)]
      (by intro p hp; fin_cases hp <;> norm_num [lerpSpeed]),
   progressRun_bounded_of_small_dt.2 true 0 (1 / 60) le_rfl (by norm_num) (by norm_num)⟩

/-- C3: starting from 0 with the driver held open (rate 4.0) and fixed
`dt = 1/60`, after 120 ticks the progress value is within `1/1000` of
`1 - e⁻⁸`, is monotonically non-decreasing at every tick, and never
exceeds 1. -/
theorem scatterProgress_convergence :
    |((scatterProgress 120 : ℚ) : ℝ) - (1 - Real.exp (-8))| ≤ 1 / 1000
    ∧ (∀ n : ℕ, scatterProgress n ≤ scatterProgress (n + 1))
    ∧ (∀ n : ℕ, scatterProgress n ≤ 1) := by
  refine ⟨?_, ?_, ?_⟩
  · have hq : ((scatterProgress 120 : ℚ) : ℝ) = 1 - ((14 : ℝ) / 15) ^ 120 := by
      rw [scatterProgress_closed]; push_cast; ring
    have hE0 : 0 < Real.exp (-8) := Real.exp_pos _
    have hE : Real.exp (-8) ≤ 1 / 1000 := by
      rw [Real.exp_neg]
      have h8 : Real.exp 8 = Real.exp 1 ^ (8 : ℕ) := by
        rw [← Real.exp_nat_mul]; norm_num
      have he1 : (2.7 : ℝ) ≤ Real.exp 1 :=
        le_of_lt (lt_trans (by norm_num) Real.exp_one_gt_d9)
      have h1000 : (1000 : ℝ) ≤ Real.exp 8 := by
        rw [h8]
        calc (1000 : ℝ) ≤ 2.7 ^ (8 : ℕ) := by norm_num
          _ ≤ Real.exp 1 ^ (8 : ℕ) := pow_le_pow_left₀ (by norm_num) he1 8
      calc (Real.exp 8)⁻¹ ≤ (1000 : ℝ)⁻¹ := inv_anti₀ (by norm_num) h1000
        _ = 1 / 1000 := by norm_num
    have hq0 : (0 : ℝ) ≤ ((14 : ℝ) / 15) ^ 120 := by positivity
    have hql : ((14 : ℝ) / 15) ^ 120 ≤ 1 / 1000 := by norm_num
    rw [hq, abs_le]
    constructor <;> linarith
  · intro n
    rw [scatterProgress_closed, scatterProgress_closed]
    have : (14 / 15 : ℚ) ^ (n + 1) ≤ (14 / 15 : ℚ) ^ n :=
      pow_le_pow_of_le_one (by norm_num) (by norm_num) (Nat.le_succ n)
    linarith
  · intro n
    rw [scatterProgress_closed]
    have : (0 : ℚ) ≤ (14 / 15 : ℚ) ^ n := by positivity
    linarith

/-! ### C4: destination threshold -/

/-- C4: on every tick the destination selector returns the chaos position
exactly when `progress > 0.5` (strict) and the formation position otherwise;
at `progress = 0.5` exactly it returns the formation position.  The selector
is a pure function of the instantaneous progress value, so there is no
hysteresis band around the threshold. -/
theorem selectDest_threshold :
    (∀ (p : ℚ) (c f : Vec3 ℝ),
        (1 / 2 < p ∧ selectDest p c f = c) ∨ (p ≤ 1 / 2 ∧ selectDest p c f = f))
    ∧ (∀ c f : Vec3 ℝ, selectDest (1 / 2 : ℚ) c f = f) := by
  constructor
  · intro p c f
    by_cases h : 1 / 2 < p
    · exact Or.inl ⟨h, if_pos h⟩
    · exact Or.inr ⟨le_of_not_lt h, if_neg h⟩
  · intro c f
    simp [selectDest]

/-! ### C5: position update robustness -/

/-- C5 counterexample: `Vector3.lerp` does not clamp its factor, so the
ornament update with `dt = 1` moves the point `(0,0,0)` to `(3,0,0)`,
overshooting past the destination `(1,0,0)`: the result lies on no point of
the segment between the old position and the destination. -/
theorem ornamentPosStep_overshoots :
    ¬ ∃ s : ℚ, 0 ≤ s ∧ s ≤ 1 ∧
      ornamentPosStep ⟨0, 0, 0⟩ ⟨1, 0, 0⟩ 1 = vlerp ⟨0, 0, 0⟩ ⟨1, 0, 0⟩ s := by
  rintro ⟨s, h0, h1, he⟩
  have hx : (3 : ℚ) = s := by
    have hc := congrArg Vec3.x he
    simp only [ornamentPosStep, vlerp] at hc
    linarith
  linarith

/-- C5 (amended): the per-tick entity position update is a no-op when
`dt = 0`, and the damping factor (`3·dt` for ornaments, `2·dt` for cards) is
not clamped, so the updated position is guaranteed to lie on the segment
between the old position and `dest` only when that factor is at most 1
(`dt ≤ 1/3` resp. `dt ≤ 1/2`); for larger `dt` the update overshoots. -/
theorem posStep_noop_and_segment :
    ∀ (p d : Vec3 ℚ) (dt : ℚ),
      (ornamentPosStep p d 0 = p ∧ polaroidPosStep p d 0 = p)
      ∧ (0 ≤ dt → dt * 3 ≤ 1 →
          ∃ s : ℚ, 0 ≤ s ∧ s ≤ 1 ∧ ornamentPosStep p d dt = vlerp p d s)
      ∧ (0 ≤ dt → dt * 2 ≤ 1 →
          ∃ s : ℚ, 0 ≤ s ∧ s ≤ 1 ∧ polaroidPosStep p d dt = vlerp p d s) := by
  intro p d dt
  refine ⟨⟨?_, ?_⟩, ?_, ?_⟩
  · ext <;> simp [ornamentPosStep, vlerp]
  · ext <;> simp [polaroidPosStep, vlerp]
  · intro h0 h1
    exact ⟨dt * 3, by positivity, h1, rfl⟩
  · intro h0 h1
    exact ⟨dt * 2, by positivity, h1, rfl⟩

/-- Witness for C5 (amended) at a concrete position, destination and delta. -/
theorem posStep_noop_and_segment_witness :
    (ornamentPosStep ⟨0, 0, 0⟩ ⟨1, 2, 3⟩ 0 = ⟨0, 0, 0⟩
      ∧ polaroidPosStep ⟨0, 0, 0⟩ ⟨1, 2, 3⟩ 0 = ⟨0, 0, 0⟩)
    ∧ (∃ s : ℚ, 0 ≤ s ∧ s ≤ 1 ∧
        ornamentPosStep ⟨0, 0, 0⟩ ⟨1, 2, 3⟩ (1 / 4) = vlerp ⟨0, 0, 0⟩ ⟨1, 2, 3⟩ s)
    ∧ (∃ s : ℚ, 0 ≤ s ∧ s ≤ 1 ∧
        polaroidPosStep ⟨0, 0, 0⟩ ⟨1, 2, 3⟩ (1 / 4) = vlerp ⟨0, 0, 0⟩ ⟨1, 2, 3⟩ s) :=
  ⟨(posStep_noop_and_segment ⟨0, 0, 0⟩ ⟨1, 2, 3⟩ (1 / 4)).1,
   (posStep_noop_and_segment ⟨0, 0, 0⟩ ⟨1, 2, 3⟩ (1 / 4)).2.1 (by norm_num) (by norm_num),
   (posStep_noop_and_segment ⟨0, 0, 0⟩ ⟨1, 2, 3⟩ (1 / 4)).2.2 (by norm_num) (by norm_num)⟩

/-! ### C8: focus gating -/

lemma focusStep_inv (s : FocusState) (e : FocusEvent)
    (h : s.focused ≠ none → s.isHandOpen = true) :
    (focusStep s e).focused ≠ none → (focusStep s e).isHandOpen = true := by
  cases e with
  | click i =>
      by_cases ho : s.isHandOpen = true
      · simp [focusStep, ho]
      · simpa [focusStep, ho] using h
  | hand b =>
      cases b <;> simp [focusStep]

lemma focusRun_inv : ∀ (es : List FocusEvent) (s : FocusState),
    (s.focused ≠ none → s.isHandOpen = true) →
    ((focusRun s es).focused ≠ none → (focusRun s es).isHandOpen = true)
  | [], _, h => h
  | e :: es, s, h => focusRun_inv es (focusStep s e) (focusStep_inv s e h)

/-- C8: starting from any initial driver value with no card focused, after
any sequence of click and driver events, a card is focused only while the
driver is open (if the driver is closed, focus is `none`); a click while the
driver is closed is a no-op; and a driver transition to closed clears the
focus. -/
theorem focus_gating_invariant :
    (∀ (b : Bool) (es : List FocusEvent),
        (focusRun ⟨b, none⟩ es).isHandOpen = false →
        (focusRun ⟨b, none⟩ es).focused = none)
    ∧ (∀ (s : FocusState) (i : ℕ), s.isHandOpen = false →
        focusStep s (FocusEvent.click i) = s)
    ∧ (∀ s : FocusState, (focusStep s (FocusEvent.hand false)).focused = none) := by
  refine ⟨?_, ?_, ?_⟩
  · intro b es hopen
    by_contra hne
    have hinv := focusRun_inv es ⟨b, none⟩ (fun h => absurd rfl h) hne
    rw [hopen] at hinv
    exact Bool.false_ne_true hinv
  · intro s i h
    simp [focusStep, h]
  · intro s
    simp [focusStep]

/-- Witness for C8 at concrete event sequences and states. -/
theorem focus_gating_invariant_witness :
    (focusRun ⟨true, none⟩ [FocusEvent.click 3, FocusEvent.hand false]).focused = none
    ∧ focusStep ⟨false, some 5⟩ (FocusEvent.click 0) = ⟨false, some 5⟩
    ∧ (focusStep ⟨true, some 2⟩ (FocusEvent.hand false)).focused = none :=
  ⟨focus_gating_invariant.1 true [FocusEvent.click 3, FocusEvent.hand false]
      (by simp [focusRun, focusStep]),
   focus_gating_invariant.2.1 ⟨false, some 5⟩ 0 rfl,
   focus_gating_invariant.2.2 ⟨true, some 2⟩⟩

/-! ### C9: gesture-to-camera distance mapping -/

lemma cameraDistance_eq (z : ℚ) :
    cameraDistance z = 22 - (mathClamp z (1 / 20) (7 / 20) - 1 / 20) * (160 / 3) := by
  unfold cameraDistance mapLinear
  ring

lemma mathClamp_mem (z : ℚ) :
    1 / 20 ≤ mathClamp z (1 / 20) (7 / 20) ∧ mathClamp z (1 / 20) (7 / 20) ≤ 7 / 20 :=
  ⟨le_max_left _ _, max_le (by norm_num) (min_le_left _ _)⟩

lemma mathClamp_mono {z w : ℚ} (h : z ≤ w) :
    mathClamp z (1 / 20) (7 / 20) ≤ mathClamp w (1 / 20) (7 / 20) :=
  max_le_max le_rfl (min_le_min le_rfl h)

/-- C9: for every real `handZ` input, the gesture-to-camera mapping clamps
the input to `[0.05, 0.35]` and maps it linearly, so the computed camera
distance always lies in `[6, 22]` and is monotonically non-increasing in
`handZ`; out-of-range input is clamped, never rejected. -/
theorem cameraDistance_clamped_monotone :
    (∀ z : ℚ, 6 ≤ cameraDistance z ∧ cameraDistance z ≤ 22)
    ∧ (∀ z w : ℚ, z ≤ w → cameraDistance w ≤ cameraDistance z) := by
  constructor
  · intro z
    obtain ⟨hlo, hhi⟩ := mathClamp_mem z
    rw [cameraDistance_eq]
    constructor <;> linarith
  · intro z w h
    have hc := mathClamp_mono h
    rw [cameraDistance_eq, cameraDistance_eq]
    linarith

/-- Witness for C9 at the out-of-range inputs 7 and 0 and the pair 0 ≤ 1. -/
theorem cameraDistance_clamped_monotone_witness :
    (6 ≤ cameraDistance 7 ∧ cameraDistance 7 ≤ 22)
    ∧ cameraDistance 1 ≤ cameraDistance 0 :=
  ⟨cameraDistance_clamped_monotone.1 7,
   cameraDistance_clamped_monotone.2 0 1 (by norm_num)⟩

/-! ### C2: formation radius vs. index -/

lemma foliageRadius_eq (i : ℕ) :
    foliageRadius i = 3.5 * Real.sqrt (((i : ℝ) + 1) / (9000 + 1)) := by
  unfold foliageRadius treeRadius foliageT TREE_WIDTH
  ring

/-- C2 counterexample: with `height = 7`, `width = 3.5`, `N = 9000`, the
computed radius `width·(1 − t) = width·sqrt((i+1)/(N+1))` grows with the
index: already `radius(0) < radius(1)`, so the radius is not non-increasing
in the index. -/
theorem foliageRadius_zero_lt_one : foliageRadius 0 < foliageRadius 1 := by
  rw [foliageRadius_eq, foliageRadius_eq]
  apply mul_lt_mul_of_pos_left _ (by norm_num : (0 : ℝ) < 3.5)
  apply Real.sqrt_lt_sqrt (by positivity)
  norm_num

/-- C2 (amended): the computed radius is non-DEcreasing as the entity index
increases: for `i ≤ j < N` the radius at `i` is at most the radius at `j`
(entities nearer the apex are the low indices and have the smaller radius). -/
theorem foliageRadius_mono :
    ∀ i j : ℕ, i ≤ j → j < 9000 → foliageRadius i ≤ foliageRadius j := by
  intro i j hij _
  rw [foliageRadius_eq, foliageRadius_eq]
  have hcast : (i : ℝ) ≤ (j : ℝ) := by exact_mod_cast hij
  have h : Real.sqrt (((i : ℝ) + 1) / (9000 + 1)) ≤ Real.sqrt (((j : ℝ) + 1) / (9000 + 1)) := by
    apply Real.sqrt_le_sqrt
    linarith
  linarith

/-- Witness for C2 (amended) at the concrete pair of indices 0 ≤ 7 < 9000. -/
theorem foliageRadius_mono_witness : foliageRadius 0 ≤ foliageRadius 7 :=
  foliageRadius_mono 0 7 (by norm_num) (by norm_num)

/-! ### C6: chaos shell containment -/

lemma chaosPos_distSq (scale minRat u1 u2 u3 : ℝ) :
    distSq (getChaosPos scale minRat u1 u2 u3) ⟨0, 0, 0⟩ = chaosRadius scale minRat u3 ^ 2 := by
  simp only [getChaosPos, distSq]
  have h1 := Real.sin_sq_add_cos_sq (u1 * (Real.pi * 2))
  have h2 := Real.sin_sq_add_cos_sq (Real.arccos (2 * u2 - 1))
  linear_combination
    (chaosRadius scale minRat u3 ^ 2 * Real.sin (Real.arccos (2 * u2 - 1)) ^ 2) * h1
      + chaosRadius scale minRat u3 ^ 2 * h2

lemma getChaosPos_norm (scale minRat u1 u2 u3 : ℝ)
    (h : 0 ≤ chaosRadius scale minRat u3) :
    vecNorm (getChaosPos scale minRat u1 u2 u3) = chaosRadius scale minRat u3 := by
  rw [vecNorm, chaosPos_distSq, Real.sqrt_sq h]

lemma cbrt_eighth : mathCbrt (1 / 8) = 1 / 2 := by
  rw [mathCbrt]
  rw [show ((1 : ℝ) / 8) = ((1 : ℝ) / 2) ^ (((3 : ℕ)) : ℝ) by rw [Real.rpow_natCast]; norm_num]
  rw [← Real.rpow_mul (by norm_num : (0 : ℝ) ≤ 1 / 2)]
  rw [show (((3 : ℕ)) : ℝ) * (1 / 3) = 1 by norm_num, Real.rpow_one]

/-- C6: for `scale = 125`, `minRatio = 0.5`, every chaos position sampled by
`getChaosPos` has Euclidean distance from the origin in `[62.5, 125]`, for
every radius draw `u3 ∈ [0, 1]` and arbitrary angle draws. -/
theorem chaosPos_shell_containment :
    ∀ u1 u2 u3 : ℝ, 0 ≤ u3 → u3 ≤ 1 →
      62.5 ≤ vecNorm (getChaosPos 125 (1 / 2) u1 u2 u3)
      ∧ vecNorm (getChaosPos 125 (1 / 2) u1 u2 u3) ≤ 125 := by
  intro u1 u2 u3 h0 h1
  have hrr0 : (1 : ℝ) / 8 ≤ u3 * (1 - (1 / 2 : ℝ) ^ 3) + (1 / 2 : ℝ) ^ 3 := by nlinarith
  have hrr1 : u3 * (1 - (1 / 2 : ℝ) ^ 3) + (1 / 2 : ℝ) ^ 3 ≤ 1 := by nlinarith
  have hcb_lo : (1 / 2 : ℝ) ≤ mathCbrt (u3 * (1 - (1 / 2 : ℝ) ^ 3) + (1 / 2 : ℝ) ^ 3) := by
    have hmono : mathCbrt (1 / 8) ≤ mathCbrt (u3 * (1 - (1 / 2 : ℝ) ^ 3) + (1 / 2 : ℝ) ^ 3) :=
      Real.rpow_le_rpow (by norm_num) hrr0 (by norm_num)
    rwa [cbrt_eighth] at hmono
  have hcb_hi : mathCbrt (u3 * (1 - (1 / 2 : ℝ) ^ 3) + (1 / 2 : ℝ) ^ 3) ≤ 1 :=
    Real.rpow_le_one (by linarith) hrr1 (by norm_num)
  have hr0 : 0 ≤ chaosRadius 125 (1 / 2) u3 := by
    rw [chaosRadius]; nlinarith
  rw [getChaosPos_norm _ _ _ _ _ hr0, chaosRadius]
  constructor <;> nlinarith

/-- Witness for C6 at the concrete draw `u1 = u2 = u3 = 0`. -/
theorem chaosPos_shell_containment_witness :
    62.5 ≤ vecNorm (getChaosPos 125 (1 / 2) 0 0 0)
    ∧ vecNorm (getChaosPos 125 (1 / 2) 0 0 0) ≤ 125 :=
  chaosPos_shell_containment 0 0 0 le_rfl (by norm_num)

/-! ### C7: end-to-end scatter scenario -/

lemma scatterProgress_le_half {n : ℕ} (hn : n ≤ 10) : scatterProgress n ≤ 1 / 2 := by
  rw [scatterProgress_closed]
  have h10 : (14 / 15 : ℚ) ^ 10 ≤ (14 / 15 : ℚ) ^ n :=
    pow_le_pow_of_le_one (by norm_num) (by norm_num) hn
  have hv : (1 / 2 : ℚ) ≤ (14 / 15 : ℚ) ^ 10 := by norm_num
  linarith

lemma scatterProgress_gt_half {n : ℕ} (hn : 11 ≤ n) : 1 / 2 < scatterProgress n := by
  rw [scatterProgress_closed]
  have h11 : (14 / 15 : ℚ) ^ n ≤ (14 / 15 : ℚ) ^ 11 :=
    pow_le_pow_of_le_one (by norm_num) (by norm_num) hn
  have hv : (14 / 15 : ℚ) ^ 11 < 1 / 2 := by norm_num
  linarith

lemma vlerp_self {α : Type} [CommRing α] (v : Vec3 α) (a : α) : vlerp v v a = v := by
  ext <;> simp [vlerp]

lemma cardRun_formation (t c : Vec3 ℝ) : ∀ n : ℕ, n ≤ 10 → cardRun t c n = t
  | 0, _ => rfl
  | n + 1, hn => by
      have hp : scatterProgress (n + 1) ≤ 1 / 2 := scatterProgress_le_half hn
      have ih := cardRun_formation t c n (by omega)
      show vlerp (cardRun t c n) (selectDest (scatterProgress (n + 1)) c t) ((1 / 60) * 2) = t
      rw [ih, selectDest, if_neg (not_lt.mpr hp), vlerp_self]

lemma cardRun_chaos_phase (t c : Vec3 ℝ) :
    ∀ k : ℕ, cardRun t c (10 + k) = vlerp c t (((29 : ℝ) / 30) ^ k)
  | 0 => by
      have h10 := cardRun_formation t c 10 le_rfl
      show cardRun t c 10 = vlerp c t (((29 : ℝ) / 30) ^ 0)
      rw [h10, pow_zero]
      ext <;> simp [vlerp]
  | k + 1 => by
      have ih := cardRun_chaos_phase t c k
      have hp : 1 / 2 < scatterProgress (10 + k + 1) := scatterProgress_gt_half (by omega)
      show vlerp (cardRun t c (10 + k)) (selectDest (scatterProgress (10 + k + 1)) c t)
        ((1 / 60) * 2) = vlerp c t (((29 : ℝ) / 30) ^ (k + 1))
      rw [ih, selectDest, if_pos hp]
      ext <;> simp only [vlerp, pow_succ] <;> ring

lemma distSq_vlerp (c t : Vec3 ℝ) (a : ℝ) :
    distSq (vlerp c t a) c = a ^ 2 * distSq t c := by
  simp only [distSq, vlerp]
  ring

lemma cardRun_300 (t c : Vec3 ℝ) :
    distSq (cardRun t c 300) c = (((29 : ℝ) / 30) ^ 290) ^ 2 * distSq t c := by
  rw [show (300 : ℕ) = 10 + 290 from rfl, cardRun_chaos_phase t c 290, distSq_vlerp]

lemma distSq_le_of_norms (t c : Vec3 ℝ)
    (ht : distSq t ⟨0, 0, 0⟩ ≤ 28) (hc : distSq c ⟨0, 0, 0⟩ ≤ 144) :
    distSq t c ≤ 344 := by
  simp only [distSq, sub_zero] at *
  nlinarith [sq_nonneg (t.x + c.x), sq_nonneg (t.y + c.y), sq_nonneg (t.z + c.z)]

lemma polaroidTarget_normSq_le (i : ℕ) (hi : i < 48) :
    distSq (polaroidTarget i) ⟨0, 0, 0⟩ ≤ 28 := by
  have hs0 : 0 ≤ Real.sqrt (((i : ℝ) + 1) / (48 + 1)) := Real.sqrt_nonneg _
  have hs1 : Real.sqrt (((i : ℝ) + 1) / (48 + 1)) ≤ 1 := by
    rw [Real.sqrt_le_one]
    rw [div_le_one (by norm_num)]
    have hcast : (i : ℝ) ≤ 47 := by exact_mod_cast Nat.lt_succ_iff.mp hi
    linarith
  have h1 := Real.sin_sq_add_cos_sq ((i : ℝ) * GOLDEN_ANGLE)
  have hcollapse : distSq (polaroidTarget i) ⟨0, 0, 0⟩
      = (3.5 * 1.1 * Real.sqrt (((i : ℝ) + 1) / (48 + 1))) ^ 2
        + (7 * (1 - Real.sqrt (((i : ℝ) + 1) / (48 + 1))) - 7 / 2) ^ 2 := by
    simp only [polaroidTarget, getTreePos, treeRadius, polaroidT, distSq,
      TREE_HEIGHT, TREE_WIDTH]
    linear_combination
      ((3.5 * 1.1 * Real.sqrt (((i : ℝ) + 1) / (48 + 1))) ^ 2) * h1
  rw [hcollapse]
  nlinarith [hs0, hs1, mul_nonneg hs0 (sub_nonneg.mpr hs1),
    mul_nonneg (sub_nonneg.mpr hs1) (sub_nonneg.mpr hs1), mul_nonneg hs0 hs0]

lemma chaosPos12_normSq_le (u1 u2 u3 : ℝ) (h0 : 0 ≤ u3) (h1 : u3 ≤ 1) :
    distSq (getChaosPos 12 0 u1 u2 u3) ⟨0, 0, 0⟩ ≤ 144 := by
  rw [chaosPos_distSq]
  have hcb0 : 0 ≤ mathCbrt (u3 * (1 - (0 : ℝ) ^ 3) + (0 : ℝ) ^ 3) :=
    Real.rpow_nonneg (by simpa using h0) _
  have hcb1 : mathCbrt (u3 * (1 - (0 : ℝ) ^ 3) + (0 : ℝ) ^ 3) ≤ 1 :=
    Real.rpow_le_one (by simpa using h0) (by simpa using h1) (by norm_num)
  rw [chaosRadius]
  nlinarith

lemma pow580_bound : ((29 : ℝ) / 30) ^ 580 * 344 ≤ 1 / 400 := by
  have h : ((29 : ℝ) / 30) ^ 580 ≤ 1 / 137600 := by
    rw [div_pow, div_le_div_iff₀ (by positivity) (by norm_num)]
    norm_num
  linarith

/-- C7: for every card index `i < 48` built by the formation generator and
every chaos draw, starting at the formation position with progress 0 and the
driver open, after 300 ticks at `dt = 1/60` (progress rate 4.0, position
rate 2) the card's current position is within `0.05 = 1/20` world units of
its chaos position. -/
theorem cards_scatter_converge :
    ∀ (i : ℕ) (u1 u2 u3 : ℝ), i < 48 → 0 ≤ u3 → u3 ≤ 1 →
      Real.sqrt (distSq (cardRun (polaroidTarget i) (getChaosPos 12 0 u1 u2 u3) 300)
        (getChaosPos 12 0 u1 u2 u3)) ≤ 1 / 20 := by
  intro i u1 u2 u3 hi h0 h1
  have ht := polaroidTarget_normSq_le i hi
  have hc := chaosPos12_normSq_le u1 u2 u3 h0 h1
  have htc := distSq_le_of_norms _ _ ht hc
  have hds0 : 0 ≤ distSq (polaroidTarget i) (getChaosPos 12 0 u1 u2 u3) := by
    simp only [distSq]; positivity
  have hfinal : distSq (cardRun (polaroidTarget i) (getChaosPos 12 0 u1 u2 u3) 300)
      (getChaosPos 12 0 u1 u2 u3) ≤ 1 / 400 := by
    rw [cardRun_300, ← pow_mul]
    calc ((29 : ℝ) / 30) ^ (290 * 2) * distSq (polaroidTarget i) (getChaosPos 12 0 u1 u2 u3)
        ≤ ((29 : ℝ) / 30) ^ (290 * 2) * 344 :=
          mul_le_mul_of_nonneg_left htc (by positivity)
      _ ≤ 1 / 400 := by rw [show 290 * 2 = 580 from rfl]; exact pow580_bound
  calc Real.sqrt (distSq (cardRun (polaroidTarget i) (getChaosPos 12 0 u1 u2 u3) 300)
        (getChaosPos 12 0 u1 u2 u3))
      ≤ Real.sqrt (1 / 400) := Real.sqrt_le_sqrt hfinal
    _ = 1 / 20 := by
        rw [show (1 / 400 : ℝ) = (1 / 20) ^ 2 by norm_num,
          Real.sqrt_sq (by norm_num : (0 : ℝ) ≤ 1 / 20)]

/-- Witness for C7 at card index 0 and the all-zero chaos draw. -/
theorem cards_scatter_converge_witness :
    Real.sqrt (distSq (cardRun (polaroidTarget 0) (getChaosPos 12 0 0 0 0) 300)
      (getChaosPos 12 0 0 0 0)) ≤ 1 / 20 :=
  cards_scatter_converge 0 0 0 0 (by norm_num) le_rfl (by norm_num)

/-! ### C10: initial state -/

/-- C10: at scene construction the system is fully in formation: the
progress value starts at 0, every card and ornament starts exactly at its
formation position, and no card is focused. -/
theorem initial_formation_state :
    (∀ t c : Vec3 ℝ, cardRun t c 0 = t)
    ∧ (∀ t c : Vec3 ℝ, ornamentRun t c 0 = t)
    ∧ scatterProgress 0 = 0
    ∧ (∀ b : Bool, (focusRun ⟨b, none⟩ []).focused = none) :=
  ⟨fun _ _ => rfl, fun _ _ => rfl, rfl, fun _ => rfl⟩
